import Mathlib

/-!
Verification of the admission-control / execution-resilience core of the
degen_bot trading service, as a shallow embedding in Lean 4.

Conventions used throughout this development:
* Python floats are modelled as exact rationals (`ℚ`); every concrete value
  appearing in the theorems below is exactly representable, and all
  comparisons have wide margins, so the rational model agrees with the
  float semantics of the source on these inputs.
* Wall-clock instants (`time.time()`) are passed in explicitly as `ℚ`
  parameters, making each stateful method a pure state transformer.
* Python code that can raise is embedded as `Except String` values; a
  `.error` constructor is the embedding of a raised exception.
* Mutable objects become structures threaded through the functions that
  the source mutates.
-/

namespace DegenBot

/-! ### Embedding of Python `str(int)` (decimal rendering of a nonnegative int)

`f"ord_{order_intent.intent_id}_{int(time.time())}"` in
`backend/exchange/order_bus.py` renders an integer in decimal.  We embed the
rendering with an explicit fuel argument so that it is structurally
recursive (and hence evaluable by `decide`). -/

/-- Decimal digit character for `d` (meaningful for `d < 10`). -/
def digitChar (d : Nat) : Char :=
  if d = 0 then '0' else if d = 1 then '1' else if d = 2 then '2'
  else if d = 3 then '3' else if d = 4 then '4' else if d = 5 then '5'
  else if d = 6 then '6' else if d = 7 then '7' else if d = 8 then '8'
  else '9'

/-- Fuelled decimal rendering, most significant digit first; any `fuel > n`
yields the same result (structural recursion on `fuel` keeps the function
kernel-reducible). -/
def natToCharsAux : Nat → Nat → List Char → List Char
  | 0, _, acc => acc
  | fuel + 1, n, acc =>
    if n < 10 then digitChar n :: acc
    else natToCharsAux fuel (n / 10) (digitChar (n % 10) :: acc)

/-- Canonical digit list of `n` (the embedding of Python `str(n)` for `n ≥ 0`). -/
def pyDigits (n : Nat) : List Char := natToCharsAux (n + 1) n []

/-- Embedding of Python `str(n)` for a nonnegative integer `n`. -/
def pyStrNat (n : Nat) : String := ⟨pyDigits n⟩

/-! ### IdempotencyCache (`backend/exchange/order_bus.py`, class `IdempotencyCache`)

The `OrderedDict` is modelled as a list of `(intent_id, created_at)` pairs,
front = least recently used (the end `popitem(last=False)` removes), back =
most recently used.  The stored payload snapshot plays no role in any claim
and is omitted from the entries. -/

/-- One idempotency-cache entry: intent id and insertion time. -/
abbrev CacheEntry := String × ℚ

/-- The ordered map of `IdempotencyCache`, front = least recently used. -/
abbrev Cache := List CacheEntry

/-- `IdempotencyCache._clean_expired`: drop entries older than
`window_seconds` relative to their insertion time. -/
def cleanExpired (windowSeconds : ℚ) (now : ℚ) (c : Cache) : Cache :=
  c.filter (fun e => !(now - e.2 > windowSeconds))

/-- `OrderedDict.move_to_end`: move the entries keyed by `id` to the
most-recently-used end, keeping their stored insertion time. -/
def moveToEnd (c : Cache) (id : String) : Cache :=
  c.filter (fun e => !(e.1 == id)) ++ c.filter (fun e => e.1 == id)

/-- `IdempotencyCache.check_and_store`: purge expired entries, report a
duplicate (refreshing its LRU position) or insert a fresh entry, evicting
the least-recently-used entry if the map then exceeds `max_size`.
Returns `(is_idempotent, new_cache)`. -/
def checkAndStore (windowSeconds : ℚ) (maxSize : Nat) (c : Cache)
    (id : String) (now : ℚ) : Bool × Cache :=
  let c1 := cleanExpired windowSeconds now c
  if c1.any (fun e => e.1 == id) then
    (true, moveToEnd c1 id)
  else
    let c2 := c1 ++ [(id, now)]
    if c2.length > maxSize then (false, c2.tail) else (false, c2)

/-! ### OrderIntent and validation (`backend/schemas/order_intent.py`)

`use_enum_values = True` makes `side`, `type` and `tif` plain strings on the
model.  Error and warning message strings are kept as fixed texts (the
source interpolates the offending numbers into them; no claim inspects the
interpolated digits, only the lists' emptiness and order). -/

/-- `OrderIntent` (pydantic model); `created_at` and `meta` play no role in
any claim and are omitted. -/
structure OrderIntent where
  symbol : String
  side : String
  size : ℚ
  otype : String
  intentId : String
  limitPx : Option ℚ := none
  tif : String := "GTC"
deriving DecidableEq, Repr

/-- `OrderValidationResult` (pydantic model). -/
structure OrderValidationResult where
  valid : Bool
  errors : List String := []
  warnings : List String := []
  clippedSize : Option ℚ := none
  riskAdjusted : Bool := false
deriving DecidableEq, Repr

/-- The `mock_prices` table of `validate_order_intent` with its
`.get(symbol, 1000)` default. -/
def mockPrice (symbol : String) : ℚ :=
  if symbol = "BTC" then 50000
  else if symbol = "ETH" then 3000
  else if symbol = "SOL" then 100
  else if symbol = "HYPE" then 1/10
  else if symbol = "BNB" then 300
  else 1000

/-- The `price_bounds` table with its `(price*0.8, price*1.2)` default. -/
def priceBounds (symbol : String) : ℚ × ℚ :=
  if symbol = "BTC" then (40000, 60000)
  else if symbol = "ETH" then (2000, 4000)
  else if symbol = "SOL" then (50, 150)
  else if symbol = "HYPE" then (1/20, 3/20)
  else if symbol = "BNB" then (200, 400)
  else (mockPrice symbol * (4/5), mockPrice symbol * (6/5))

/-- Python `current_positions.get(symbol, 0.0)`. -/
def lookupPos (pos : List (String × ℚ)) (symbol : String) : ℚ :=
  (pos.lookup symbol).getD 0

/-- `validate_order_intent`: rule checks collected in source order; each
later violated rule overwrites `clipped_size`.  `current_positions` is
`Option`al (default `None`) and, mirroring Python truthiness, an empty dict
also skips the position rule. -/
def validateOrderIntent (o : OrderIntent)
    (currentPositions : Option (List (String × ℚ))) : OrderValidationResult :=
  let minSize : ℚ := 1/1000
  let maxSize : ℚ := 100
  let maxNotional : ℚ := 10000
  let maxPositionSize : ℚ := 1000
  let errors0 : List String :=
    if o.size < minSize then ["Order size below minimum"] else []
  let st1 : List String × Option ℚ × Bool :=
    if o.size > maxSize then
      (errors0 ++ ["Order size exceeds maximum"], some maxSize, true)
    else (errors0, none, false)
  let price := mockPrice o.symbol
  let notional := o.size * price
  let st2 : List String × Option ℚ × Bool :=
    if notional > maxNotional then
      (st1.1 ++ ["Notional value exceeds maximum"], some (maxNotional / price), true)
    else st1
  let st3 : List String × Option ℚ × Bool :=
    match currentPositions with
    | none => st2
    | some ps =>
      if ps = [] then st2
      else
        let currentPos := lookupPos ps o.symbol
        let newPos := currentPos + (if o.side = "BUY" then o.size else -o.size)
        if |newPos| > maxPositionSize then
          let maxAdditional := maxPositionSize - |currentPos|
          (st2.1 ++ ["Position size would exceed maximum"],
           some (if o.side = "BUY" then min o.size maxAdditional
                 else min o.size maxAdditional), true)
        else st2
  let warnings : List String :=
    match o.limitPx with
    | none => []
    | some px =>
      if o.otype = "limit" ∧ px ≠ 0 then
        let bounds := priceBounds o.symbol
        if ¬(bounds.1 ≤ px ∧ px ≤ bounds.2) then
          ["Limit price outside typical range"]
        else []
      else []
  let errorsF : List String :=
    if o.tif = "GTC" ∨ o.tif = "IOC" then st3.1
    else st3.1 ++ ["Invalid time in force"]
  { valid := errorsF.isEmpty
    errors := errorsF
    warnings := warnings
    clippedSize := st3.2.1
    riskAdjusted := st3.2.2 }

/-- The pydantic `validate_size` field validator, re-run on assignment
because of `validate_assignment = True`; a raised `ValueError` is the
`.error` case. -/
def validateSizeAssign (v : ℚ) : Except String ℚ :=
  if v ≤ 0 then .error "Order size must be positive"
  else if v > 1000 then .error "Order size exceeds maximum limit (1000)"
  else .ok v

/-- `clip_to_risk`: re-validate and, when a clip candidate exists, assign it
to a copy of the intent (which re-triggers the size field validator). -/
def clipToRisk (o : OrderIntent)
    (currentPositions : Option (List (String × ℚ))) : Except String OrderIntent :=
  let validation := validateOrderIntent o currentPositions
  match validation.clippedSize with
  | some c => (validateSizeAssign c).map (fun c' => { o with size := c' })
  | none => .ok o

/-! ### OrderBus (`backend/exchange/order_bus.py`, class `OrderBus`)

The audit JSONL file is modelled as an in-memory append-only list (its
`_log_audit_event` wrapper swallows any write error, so an append never
raises into `submit`).  ISO-timestamp strings attached to results and
events are wall-clock presentation data and are omitted. -/

/-- One audit event; only the fields the claims inspect are kept. -/
structure AuditEvent where
  event : String
  intentId : Option String := none
  orderId : Option String := none
  errors : List String := []
  warnings : List String := []
  errorMessage : Option String := none
deriving DecidableEq, Repr

/-- `EnqueuedResult` (timestamp string omitted). -/
structure EnqueuedResult where
  success : Bool
  orderId : Option String := none
  idempotent : Bool := false
  validationResult : Option OrderValidationResult := none
  errorMessage : Option String := none
deriving DecidableEq, Repr

/-- One `pending_orders` record. -/
structure PendingOrder where
  intentId : String
  intent : OrderIntent
  status : String
deriving DecidableEq, Repr

/-- The mutable state of an `OrderBus` instance. -/
structure BusState where
  cache : Cache := []
  pending : List (String × PendingOrder) := []
  audit : List AuditEvent := []
deriving DecidableEq, Repr

/-- Python `int(q)` for a nonnegative rational wall-clock instant
(truncation toward zero). -/
def pyIntNat (q : ℚ) : Nat := (q.num / (q.den : Int)).toNat

/-- Order-id generation of `OrderBus.submit`:
`f"ord_{order_intent.intent_id}_{int(time.time())}"`. -/
def genOrderId (intentId : String) (t : Nat) : String :=
  "ord_" ++ intentId ++ "_" ++ pyStrNat t

/-- `OrderBus.submit` with the wall clock passed in: idempotency check,
validation, risk clipping (whose size assignment may raise, caught by the
surrounding `except` into an `order_error` event), order-id generation,
pending-order record, audit event.  `OrderBus.__init__` fixes
`window_seconds = 60` and the cache default `max_size = 1000`. -/
def busSubmit (st : BusState) (o : OrderIntent)
    (currentPositions : Option (List (String × ℚ))) (now : ℚ) :
    EnqueuedResult × BusState :=
  let dc := checkAndStore 60 1000 st.cache o.intentId now
  if dc.1 then
    ({ success := false, idempotent := true,
       errorMessage := some "Order intent already processed" },
     { st with cache := dc.2 })
  else
    let v := validateOrderIntent o currentPositions
    if ¬v.valid then
      ({ success := false, validationResult := some v,
         errorMessage := some (String.intercalate "; " v.errors) },
       { st with
           cache := dc.2,
           audit := st.audit ++
             [{ event := "order_rejected", intentId := some o.intentId,
                errors := v.errors }] })
    else
      match (if v.riskAdjusted then clipToRisk o currentPositions else .ok o) with
      | .error e =>
        ({ success := false, errorMessage := some e },
         { st with
             cache := dc.2,
             audit := st.audit ++
               [{ event := "order_error", intentId := some o.intentId,
                  errorMessage := some e }] })
      | .ok o2 =>
        let oid := genOrderId o2.intentId (pyIntNat now)
        ({ success := true, orderId := some oid, validationResult := some v },
         { st with
             cache := dc.2,
             pending := st.pending ++
               [(oid, { intentId := o2.intentId, intent := o2, status := "pending" })],
             audit := st.audit ++
               [{ event := "order_submitted", intentId := some o2.intentId,
                  orderId := some oid, warnings := v.warnings }] })

/-- Control-flow skeleton of `OrderBus.submit` with the outcome of each
fallible callee abstracted as an `Except String` value (`.error e` embeds a
raised exception with message `e`), mirroring the `try/except Exception`
that wraps the whole body: any raise is converted into an `order_error`
audit event and a failed result.  `busSubmit` above is this skeleton
instantiated with the concrete callees (of which only the clip step can
actually raise in the model). -/
def submitSkeleton (intentId : String) (origIntent : OrderIntent)
    (checkStoreR : Except String Bool)
    (validateR : Except String OrderValidationResult)
    (clipR : Except String OrderIntent) (genIdR : Except String String)
    (log : List AuditEvent) : EnqueuedResult × List AuditEvent :=
  let errOut : String → EnqueuedResult × List AuditEvent := fun e =>
    ({ success := false, errorMessage := some e },
     log ++ [{ event := "order_error", intentId := some intentId,
               errorMessage := some e }])
  match checkStoreR with
  | .error e => errOut e
  | .ok true =>
    ({ success := false, idempotent := true,
       errorMessage := some "Order intent already processed" }, log)
  | .ok false =>
    match validateR with
    | .error e => errOut e
    | .ok v =>
      if ¬v.valid then
        ({ success := false, validationResult := some v,
           errorMessage := some (String.intercalate "; " v.errors) },
         log ++ [{ event := "order_rejected", intentId := some intentId,
                   errors := v.errors }])
      else
        match (if v.riskAdjusted then clipR else .ok origIntent) with
        | .error e => errOut e
        | .ok _ =>
          match genIdR with
          | .error e => errOut e
          | .ok oid =>
            ({ success := true, orderId := some oid, validationResult := some v },
             log ++ [{ event := "order_submitted", intentId := some intentId,
                       orderId := some oid, warnings := v.warnings }])

/-! ### CircuitBreaker (`backend/util/breakers.py`)

`if not self.tripped_at:` follows Python truthiness: both `None` and the
float `0.0` are falsy, which the model reproduces exactly. -/

/-- `BreakerConfig`. -/
structure BreakerConfig where
  failureWindowSec : ℚ := 30
  failureThreshold : Nat := 5
  resetAfterSec : ℚ := 60
deriving DecidableEq, Repr

/-- The mutable state of one `CircuitBreaker`. -/
structure CircuitBreaker where
  path : String
  config : BreakerConfig := {}
  failures : List ℚ := []
  trippedAt : Option ℚ := none
deriving DecidableEq, Repr

/-- `CircuitBreaker.is_tripped`: returns the verdict and the possibly
auto-reset breaker (reading a breaker whose cooldown has elapsed clears its
trip timestamp as a side effect). -/
def isTripped (now : ℚ) (b : CircuitBreaker) : Bool × CircuitBreaker :=
  match b.trippedAt with
  | none => (false, b)
  | some t =>
    if t = 0 then (false, b)
    else if now - t > b.config.resetAfterSec then
      (false, { b with trippedAt := none })
    else (true, b)

/-- The status dictionary built by `CircuitBreaker.get_status`. -/
structure BreakerStatus where
  path : String
  tripped : Bool
  failureCount : Nat
  lastFailure : Option ℚ
  trippedAt : Option ℚ
deriving DecidableEq, Repr

/-- `CircuitBreaker.get_status`: evaluates `is_tripped()` (which may lazily
auto-reset the breaker) and then reads the remaining fields of the updated
breaker. -/
def getStatus (now : ℚ) (b : CircuitBreaker) : BreakerStatus × CircuitBreaker :=
  let tb := isTripped now b
  ({ path := b.path, tripped := tb.1, failureCount := tb.2.failures.length,
     lastFailure := tb.2.failures.getLast?, trippedAt := tb.2.trippedAt }, tb.2)

/-! ### BudgetGuard (`backend/util/budget_guard.py`) -/

/-- `PnLRecord`. -/
structure PnLRecord where
  timestamp : ℚ
  realizedPnl : ℚ
  simulatedPnl : ℚ
  totalPnl : ℚ
deriving DecidableEq, Repr

/-- The mutable state of the `BudgetGuard` (`triggered_at` is bookkeeping
read by no claim and is omitted). -/
structure BudgetGuard where
  maxDrawdownPct : ℚ := 10
  windowSeconds : ℚ := 24 * 3600
  records : List PnLRecord := []
  initialBalance : ℚ := 10000
  triggered : Bool := false
deriving DecidableEq, Repr

/-- Sum of `total_pnl` over the retained records. -/
def windowTotalPnl (g : BudgetGuard) : ℚ :=
  (g.records.map (fun r => r.totalPnl)).sum

/-- `BudgetGuard._check_budget_limit`. -/
def checkBudgetLimit (g : BudgetGuard) : BudgetGuard :=
  if g.records = [] then g
  else
    let drawdownPct := |windowTotalPnl g| / g.initialBalance * 100
    if drawdownPct ≥ g.maxDrawdownPct ∧ ¬g.triggered then
      { g with triggered := true }
    else if drawdownPct < g.maxDrawdownPct ∧ g.triggered then
      { g with triggered := false }
    else g

/-- `BudgetGuard.record_pnl`: append the new record, pop records older than
the window from the front of the deque, then re-check the budget limit. -/
def recordPnl (g : BudgetGuard) (now realizedPnl simulatedPnl : ℚ) : BudgetGuard :=
  let totalPnl := realizedPnl + simulatedPnl
  let appended := g.records ++
    [{ timestamp := now, realizedPnl := realizedPnl,
       simulatedPnl := simulatedPnl, totalPnl := totalPnl }]
  let pruned := appended.dropWhile (fun r => r.timestamp < now - g.windowSeconds)
  checkBudgetLimit { g with records := pruned }

/-- The status dictionary of `BudgetGuard.get_status` (pure read). -/
structure BudgetStatus where
  triggered : Bool
  drawdownPct : ℚ
deriving DecidableEq, Repr

/-- `BudgetGuard.get_status`. -/
def budgetGetStatus (g : BudgetGuard) : BudgetStatus :=
  if g.records = [] then { triggered := false, drawdownPct := 0 }
  else { triggered := g.triggered,
         drawdownPct := |windowTotalPnl g| / g.initialBalance * 100 }

/-! ### LiveGuard (`backend/util/live_guard.py`, `check_live_guard`)

The data-health provider is external; its status string is an input
(`none` embeds a missing sampler).  The reason string and verdict are
returned together with the breaker states after the call — the breaker
reads go through `get_status`, whose `is_tripped()` may mutate. -/

/-- `check_live_guard`, returning `((is_safe, reason), breakers_after)`. -/
def checkLiveGuard (healthStatus : Option String)
    (breakers : List CircuitBreaker) (budget : BudgetGuard) (now : ℚ) :
    (Bool × String) × List CircuitBreaker :=
  match healthStatus with
  | none => ((false, "no_sampler"), breakers)
  | some h =>
    if h ≠ "healthy" then ((false, "data_degraded"), breakers)
    else
      let pairs := breakers.map (getStatus now)
      let breakers2 := pairs.map (fun p => p.2)
      if pairs.any (fun p => p.1.tripped) then
        ((false, "breaker_active"), breakers2)
      else if (budgetGetStatus budget).triggered then
        ((false, "budget_triggered"), breakers2)
      else ((true, "all_green"), breakers2)

/-! ### TokenBucket (`backend/util/ratelimit.py`)

`total_wait_time` and the metrics hooks are measurement-only bookkeeping
with no effect on the bucket and are omitted.  Python raises
`ZeroDivisionError` on `tokens_needed / self.rps` when `rps == 0`; the
embedding returns `.error` there, keeping the mutations made before the
raise (the refill) in the returned state, exactly as the exception would
leave the object. -/

/-- The mutable state of a `TokenBucket`. -/
structure TokenBucket where
  rps : ℚ
  burst : ℚ
  tokens : ℚ
  lastRefill : ℚ
  tokensConsumed : ℚ := 0
deriving DecidableEq, Repr

/-- `TokenBucket.__init__`. -/
def mkTokenBucket (rps : ℚ) (burst : ℚ) (now : ℚ) : TokenBucket :=
  { rps := rps, burst := burst, tokens := burst, lastRefill := now }

/-- The lazy-refill block at the top of `TokenBucket.acquire`: add
`elapsed * rps` tokens capped at `burst` (only when the amount is
positive) and update the refill timestamp. -/
def refillBucket (b : TokenBucket) (now : ℚ) : TokenBucket :=
  let elapsed := now - b.lastRefill
  let refillAmount := elapsed * b.rps
  if refillAmount > 0 then
    { b with tokens := min b.burst (b.tokens + refillAmount), lastRefill := now }
  else b

/-- `TokenBucket.acquire` with the wall clock passed in; returns the call's
outcome (`.error` embeds the `ZeroDivisionError` raised when `rps == 0` on
the insufficient-tokens path) and the bucket afterwards. -/
def acquire (b : TokenBucket) (tokens : ℚ) (timeoutMs : ℚ) (now : ℚ) :
    Except String Bool × TokenBucket :=
  let timeoutSeconds := timeoutMs / 1000
  let b1 := refillBucket b now
  if b1.tokens ≥ tokens then
    (.ok true,
     { b1 with
         tokens := b1.tokens - tokens,
         tokensConsumed := b1.tokensConsumed + tokens })
  else
    let tokensNeeded := tokens - b1.tokens
    if b1.rps = 0 then (.error "ZeroDivisionError", b1)
    else
      let waitSeconds := tokensNeeded / b1.rps
      if waitSeconds ≤ timeoutSeconds then
        (.ok true,
         { b1 with
             tokens := min b1.burst (b1.tokens + waitSeconds * b1.rps) - tokens,
             tokensConsumed := b1.tokensConsumed + tokens })
      else (.ok false, b1)

/-! ### SubmissionClient (`backend/exchange/hl_private.py`, `send_order`)

The underlying single-attempt submission is abstracted as a function from
the attempt index to an `Except String SendResult` (`.error` embeds an
exception escaping `_submit_order_with_retry`; the source classifies and
returns failures, so the normal case is `.ok` with a failed result).  The
retry delays are slept, not observable in the result, so only the attempt
count and the returned result are modelled. -/

/-- `ErrorType`. -/
inductive HLErrorType where
  | rateLimit | auth | invalid | network | unknown
deriving DecidableEq, Repr

/-- `SendResult` (`raw_response` is an opaque payload and is omitted). -/
structure SendResult where
  success : Bool
  orderId : Option String := none
  errorType : Option HLErrorType := none
  errorMessage : Option String := none
  retryAfter : Option Nat := none
deriving DecidableEq, Repr

/-- The `for attempt in range(self.max_retries)` loop of `send_order`;
`fuel` is the number of remaining iterations (initially `maxRetries`, with
`attempt + fuel = maxRetries` throughout).  Returns the result together
with the number of submission attempts made. -/
def sendOrderGo (maxRetries : Nat) (att : Nat → Except String SendResult) :
    Nat → Nat → Nat → SendResult × Nat
  | 0, _, calls =>
    ({ success := false, errorType := some .unknown,
       errorMessage := some "Max retries exceeded" }, calls)
  | fuel + 1, attempt, calls =>
    match att attempt with
    | .error e =>
      if attempt = maxRetries - 1 then
        ({ success := false, errorType := some .unknown,
           errorMessage := some e }, calls + 1)
      else sendOrderGo maxRetries att fuel (attempt + 1) (calls + 1)
    | .ok r =>
      if r.success then (r, calls + 1)
      else if r.errorType = some .rateLimit ∧ attempt < maxRetries - 1 then
        sendOrderGo maxRetries att fuel (attempt + 1) (calls + 1)
      else if r.errorType = some .auth ∨ r.errorType = some .invalid then
        (r, calls + 1)
      else if attempt < maxRetries - 1 then
        sendOrderGo maxRetries att fuel (attempt + 1) (calls + 1)
      else (r, calls + 1)

/-- `HLPrivateClient.send_order` (`uuid` stands in for the random suffix of
the dry-run order id).  Returns the result and the number of times the
underlying submission was invoked. -/
def sendOrder (maxRetries : Nat) (att : Nat → Except String SendResult)
    (dryRun : Bool) (uuid : String) : SendResult × Nat :=
  if dryRun then
    ({ success := true, orderId := some ("dry_run_" ++ uuid) }, 0)
  else sendOrderGo maxRetries att maxRetries 0 0

/-! ### Auxiliary definitions for the proofs -/

/-- Numeric value of a decimal digit character (proof-side valuation used
to establish injectivity of `pyStrNat`). -/
def charVal (c : Char) : Nat := c.toNat - 48

/-- Decimal value of a digit string (proof-side valuation). -/
def digitsVal (l : List Char) : Nat := l.foldl (fun a c => 10 * a + charVal c) 0

/-- A concrete well-formed market order intent with intent id `"a"` (used
to exercise `OrderBus.submit`). -/
def intentA : OrderIntent :=
  { symbol := "BTC", side := "BUY", size := 1/10, otype := "market",
    intentId := "a" }

/-- A family of distinct filler intents with intent ids `"f0"`, `"f1"`, …
(used to flood the idempotency cache past `max_size`). -/
def freshIntent (n : Nat) : OrderIntent :=
  { symbol := "BTC", side := "BUY", size := 1/10, otype := "market",
    intentId := "f" ++ pyStrNat n }

/-- Bus state after submitting `intentA` at time 100 to a fresh bus. -/
def busAfterA : BusState := (busSubmit {} intentA none 100).2

/-- Bus state after additionally submitting 1000 distinct filler intents at
time 100, which evicts intent id `"a"` from the idempotency cache under
size pressure. -/
def busAfterFlood : BusState :=
  (List.range 1000).foldl
    (fun st n => (busSubmit st (freshIntent n) none 100).2) busAfterA

/-- The always-network-failure result returned by a mocked submission
attempt. -/
def netFailResult : SendResult :=
  { success := false, errorType := some .network,
    errorMessage := some "Server error: 500" }

/-! ## Theorems -/

/-- C2: with `rps = 0` and `burst = 2`, both initial `acquire(1)` calls
succeed, but the third call (empty bucket, `timeout_ms = 0`) evaluates
`tokens_needed / self.rps` with `rps = 0` and raises `ZeroDivisionError`
instead of returning false: the code faults exactly where the spec expects
a graceful `false`. -/
theorem C2_rps_zero_acquire_faults :
    (acquire (mkTokenBucket 0 2 0) 1 0 0).1 = .ok true ∧
    (acquire (acquire (mkTokenBucket 0 2 0) 1 0 0).2 1 0 1).1 = .ok true ∧
    (acquire (acquire (acquire (mkTokenBucket 0 2 0) 1 0 0).2 1 0 1).2 1 0 2).1 =
      .error "ZeroDivisionError" := by
  refine ⟨?_, ?_, ?_⟩ <;> with_unfolding_all rfl

/-- C10: with the BTC position already at `max_position_size = 1000`, a
BUY of size 0.1 produces the position-rule clip candidate
`min(0.1, 1000 - 1000) = 0`, and `clip_to_risk` then raises
`ValueError("Order size must be positive")` when assigning the
non-positive size to the intent copy instead of returning a clipped
intent. -/
theorem C10_clip_nonpositive_size_raises :
    (validateOrderIntent
      { symbol := "BTC", side := "BUY", size := 1/10, otype := "market",
        intentId := "i1" } (some [("BTC", 1000)])).clippedSize = some 0 ∧
    clipToRisk
      { symbol := "BTC", side := "BUY", size := 1/10, otype := "market",
        intentId := "i1" } (some [("BTC", 1000)]) =
      .error "Order size must be positive" := by
  refine ⟨?_, ?_⟩ <;> with_unfolding_all rfl

/-- C1 counterexample: with `window_seconds = 60` and `max_size = 2`,
the id `"a"` is first stored (`false`), then three distinct inserts at the
same instant evict it under size pressure, and the next call with `"a"` —
well inside the 60-second window — returns `false` again instead of
`true`, refuting the claim for interleavings that insert more than
`max_size` distinct ids. -/
theorem C1_counterexample_eviction_within_window :
    (checkAndStore 60 2 [] "a" 0).1 = false ∧
    (checkAndStore 60 2
      (checkAndStore 60 2
        (checkAndStore 60 2
          (checkAndStore 60 2 [] "a" 0).2 "b" 0).2 "c" 0).2 "a" 0).1 = false := by
  refine ⟨?_, ?_⟩ <;> with_unfolding_all rfl

/-- C4 counterexample: for a BTC BUY of size 150 against a current BTC
position of 950, all three of the size, notional, and position rules are
violated; the notional bound is `10000 / 50000 = 1/5`, yet `clip_to_risk`
returns size 50 (the position-rule candidate, which was checked last),
strictly greater than the smallest violated bound. -/
theorem C4_counterexample_not_smallest_bound :
    (validateOrderIntent
      { symbol := "BTC", side := "BUY", size := 150, otype := "market",
        intentId := "i2" } (some [("BTC", 950)])).clippedSize = some 50 ∧
    clipToRisk
      { symbol := "BTC", side := "BUY", size := 150, otype := "market",
        intentId := "i2" } (some [("BTC", 950)]) =
      .ok { symbol := "BTC", side := "BUY", size := 50, otype := "market",
            intentId := "i2" } ∧
    (150 : ℚ) * mockPrice "BTC" > 10000 ∧
    (10000 : ℚ) / mockPrice "BTC" = 1/5 ∧
    ¬((50 : ℚ) ≤ 1/5) := by
  refine ⟨?_, ?_, ?_, ?_, ?_⟩
  · with_unfolding_all rfl
  · with_unfolding_all rfl
  · with_unfolding_all decide
  · with_unfolding_all rfl
  · with_unfolding_all decide

/-- C5 counterexample: reading the guard is not side-effect free — with a
healthy data feed and a breaker whose trip (at time 10) has outlived its
60-second cooldown by time 100, `check_live_guard` returns the
`(true, "all_green")` verdict but clears the breaker's trip timestamp as a
side effect, leaving the breaker state changed. -/
theorem C5_counterexample_breaker_mutated :
    (checkLiveGuard (some "healthy")
      [{ path := "order-api", trippedAt := some 10 }] {} 100).1 =
      (true, "all_green") ∧
    (checkLiveGuard (some "healthy")
      [{ path := "order-api", trippedAt := some 10 }] {} 100).2 ≠
      [{ path := "order-api", trippedAt := some 10 }] := by
  refine ⟨?_, ?_⟩ <;> with_unfolding_all decide

/-- C6 counterexample: a full bucket with `burst = 5`, `rps = 1` granted
`acquire(10)` with a 10-second timeout returns true and leaves
`tokens = -5`: the post-wait refill is capped at `burst` before the
subtraction, so a request larger than `burst` drives the count negative,
violating `0 ≤ tokens`. -/
theorem C6_counterexample_negative_tokens :
    (acquire (mkTokenBucket 1 5 0) 10 10000 0).1 = .ok true ∧
    (acquire (mkTokenBucket 1 5 0) 10 10000 0).2.tokens = -5 ∧
    ¬(0 ≤ (acquire (mkTokenBucket 1 5 0) 10 10000 0).2.tokens) := by
  refine ⟨?_, ?_, ?_⟩
  · with_unfolding_all rfl
  · with_unfolding_all rfl
  · with_unfolding_all decide

/-- `refillBucket` does not change the configuration fields. -/
theorem refillBucket_rps (b : TokenBucket) (now : ℚ) :
    (refillBucket b now).rps = b.rps := by
  unfold refillBucket; dsimp only; split_ifs <;> rfl

/-- `refillBucket` does not change the burst capacity. -/
theorem refillBucket_burst (b : TokenBucket) (now : ℚ) :
    (refillBucket b now).burst = b.burst := by
  unfold refillBucket; dsimp only; split_ifs <;> rfl

/-- The refill step keeps the token count within `[0, burst]`. -/
theorem refillBucket_bounds (b : TokenBucket) (now : ℚ)
    (h0 : 0 ≤ b.tokens) (hb : b.tokens ≤ b.burst) :
    0 ≤ (refillBucket b now).tokens ∧ (refillBucket b now).tokens ≤ b.burst := by
  unfold refillBucket
  dsimp only
  split_ifs with h
  · exact ⟨le_min (h0.trans hb) (by linarith), min_le_left _ _⟩
  · exact ⟨h0, hb⟩

/-- C6 (amended): the invariant `0 ≤ tokens ≤ burst` is preserved by every
`acquire` call that requests between 0 and `burst` tokens (for a
nonnegative refill rate); the counterexample shows it fails for requests
above `burst`. -/
theorem C6_amended_invariant (b : TokenBucket) (req timeoutMs now : ℚ)
    (htok0 : 0 ≤ b.tokens) (htokb : b.tokens ≤ b.burst)
    (hreq0 : 0 ≤ req) (hreqb : req ≤ b.burst) :
    0 ≤ (acquire b req timeoutMs now).2.tokens ∧
    (acquire b req timeoutMs now).2.tokens ≤ b.burst := by
  obtain ⟨ht10, ht1b⟩ := refillBucket_bounds b now htok0 htokb
  have hburst1 : (refillBucket b now).burst = b.burst := refillBucket_burst b now
  unfold acquire
  dsimp only
  split_ifs with h2 h3 h4 <;> dsimp only
  · exact ⟨by linarith, by linarith⟩
  · exact ⟨ht10, ht1b⟩
  · have hc : (req - (refillBucket b now).tokens) / (refillBucket b now).rps *
        (refillBucket b now).rps = req - (refillBucket b now).tokens :=
      div_mul_cancel₀ _ h3
    rw [hc]
    have hre : (refillBucket b now).tokens + (req - (refillBucket b now).tokens) = req := by
      ring
    rw [hre, hburst1, min_eq_right hreqb]
    exact ⟨by linarith, by linarith⟩
  · exact ⟨ht10, ht1b⟩

/-- C6 witness: the amended invariant applied to a concrete bucket
(`rps = 1`, `burst = 5`, full) and a concrete in-range request. -/
theorem C6_amended_invariant_witness :
    ((0:ℚ) ≤ (mkTokenBucket 1 5 0).tokens ∧
     (mkTokenBucket 1 5 0).tokens ≤ (mkTokenBucket 1 5 0).burst ∧
     (0:ℚ) ≤ 3 ∧ (3:ℚ) ≤ (mkTokenBucket 1 5 0).burst) ∧
    (0 ≤ (acquire (mkTokenBucket 1 5 0) 3 0 0).2.tokens ∧
     (acquire (mkTokenBucket 1 5 0) 3 0 0).2.tokens ≤ (mkTokenBucket 1 5 0).burst) :=
  ⟨⟨by with_unfolding_all decide, by with_unfolding_all decide,
    by with_unfolding_all decide, by with_unfolding_all decide⟩,
   C6_amended_invariant (mkTokenBucket 1 5 0) 3 0 0
     (by with_unfolding_all decide) (by with_unfolding_all decide)
     (by with_unfolding_all decide) (by with_unfolding_all decide)⟩

/-- C3 counterexample: with every attempt failing with a Network
classification, `send_order` (defaults: `max_retries = 3`) invokes the
underlying submission exactly 3 times — `for attempt in
range(self.max_retries)` — not the claimed `max_retries + 1 = 4`. -/
theorem C3_counterexample_three_calls :
    sendOrder 3 (fun _ => .ok netFailResult) false "u" = (netFailResult, 3) ∧
    (3 : Nat) ≠ 3 + 1 := by
  exact ⟨rfl, by decide⟩

/-- C5 (amended): `check_live_guard` returns its verdict and leaves the
budget guard and data-health provider unchanged (both are modelled as pure
reads, matching the source), but it is not entirely side-effect free on
the breakers: on the healthy-data path every breaker is read through
`get_status`, whose `is_tripped()` lazily clears the trip timestamp of a
breaker whose cooldown has elapsed; every breaker is otherwise unchanged,
and the breakers are untouched when the data-health check already fails. -/
theorem C5_amended_lazy_reset_only (healthStatus : Option String)
    (breakers : List CircuitBreaker) (budget : BudgetGuard) (now : ℚ) :
    (checkLiveGuard healthStatus breakers budget now).2 =
      (if healthStatus = some "healthy"
       then breakers.map (fun b => (isTripped now b).2)
       else breakers) ∧
    ∀ b : CircuitBreaker,
      (isTripped now b).2 =
        (match b.trippedAt with
         | none => b
         | some t =>
           if t ≠ 0 ∧ now - t > b.config.resetAfterSec
           then { b with trippedAt := none } else b) := by
  constructor
  · unfold checkLiveGuard
    match healthStatus with
    | none => simp
    | some h =>
      dsimp only
      by_cases hh : h = "healthy"
      · subst hh
        rw [if_neg (fun hne => hne rfl), if_pos rfl]
        split_ifs <;> simp [List.map_map, Function.comp, getStatus]
      · rw [if_pos hh, if_neg (by simpa using hh)]
  · intro b
    match hb : b.trippedAt with
    | none => simp [isTripped, hb]
    | some t =>
      simp only [isTripped, hb]
      by_cases h0 : t = 0
      · simp [h0]
      · by_cases hel : now - t > b.config.resetAfterSec
        · simp [h0, hel]
        · simp [h0, hel]

/-- `_check_budget_limit` never touches the records. -/
theorem checkBudgetLimit_records (g : BudgetGuard) :
    (checkBudgetLimit g).records = g.records := by
  unfold checkBudgetLimit; dsimp only; split_ifs <;> rfl

/-- On a nonempty record list, the trip flag after `_check_budget_limit` is
exactly the comparison of the drawdown percentage with the threshold
(regardless of the previous flag). -/
theorem checkBudgetLimit_triggered_eq (g : BudgetGuard) (h : ¬g.records = []) :
    (checkBudgetLimit g).triggered =
      decide (g.maxDrawdownPct ≤ |windowTotalPnl g| / g.initialBalance * 100) := by
  unfold checkBudgetLimit
  dsimp only
  rw [if_neg h]
  split_ifs with h1 h2
  · simp [ge_iff_le.mp h1.1]
  · simp [not_le.mpr h2.1]
  · by_cases ht : g.triggered
    · have : g.maxDrawdownPct ≤ |windowTotalPnl g| / g.initialBalance * 100 := by
        by_contra hc
        exact h2 ⟨not_le.mp hc, ht⟩
      simp [ht, this]
    · have : ¬g.maxDrawdownPct ≤ |windowTotalPnl g| / g.initialBalance * 100 := by
        intro hc
        exact h1 ⟨hc, ht⟩
      simp [ht, this]

/-- A `dropWhile` from a list whose last element fails the predicate is
nonempty. -/
theorem dropWhile_append_singleton_ne_nil {α : Type} (p : α → Bool)
    (l : List α) (x : α) (hx : p x = false) : ¬(l ++ [x]).dropWhile p = [] := by
  intro h
  have hall := List.dropWhile_eq_nil_iff.mp h x
  simp [hx] at hall

/-- C7: after every `record_pnl` call (with a positive initial balance and
a nonnegative window), `is_triggered()` is true exactly when the absolute
rolling-window PnL sum has reached
`initial_balance * max_drawdown_pct / 100` — so crossing the threshold
trips the guard in the same call, and an offsetting delta that brings the
absolute sum back under the threshold resets it in the same call. -/
theorem C7_budget_guard_threshold (g : BudgetGuard) (now r s : ℚ)
    (hbal : 0 < g.initialBalance) (hwin : 0 ≤ g.windowSeconds) :
    (recordPnl g now r s).triggered = true ↔
      g.initialBalance * g.maxDrawdownPct / 100 ≤
        |windowTotalPnl (recordPnl g now r s)| := by
  have h100 : (0:ℚ) < 100 := by norm_num
  unfold recordPnl
  dsimp only
  set pruned := (g.records ++
      [({ timestamp := now, realizedPnl := r, simulatedPnl := s,
          totalPnl := r + s } : PnLRecord)]).dropWhile
        (fun q : PnLRecord => q.timestamp < now - g.windowSeconds) with hpruned
  have hne : ¬({ g with records := pruned } : BudgetGuard).records = [] := by
    dsimp only
    rw [hpruned]
    refine dropWhile_append_singleton_ne_nil _ _ _ ?_
    show decide (now < now - g.windowSeconds) = false
    simp only [decide_eq_false_iff_not, not_lt]
    linarith
  rw [checkBudgetLimit_triggered_eq _ hne]
  have hrec : windowTotalPnl (checkBudgetLimit { g with records := pruned }) =
      windowTotalPnl { g with records := pruned } := by
    unfold windowTotalPnl
    rw [checkBudgetLimit_records]
  rw [hrec]
  rw [decide_eq_true_iff, div_mul_eq_mul_div, le_div_iff₀ hbal, div_le_iff₀ h100,
    mul_comm g.maxDrawdownPct g.initialBalance]

/-- C7 witness: the threshold characterization applied to the
default-configured guard (balance 10000, 10% threshold, 24h window) after
recording a −1000 PnL delta. -/
theorem C7_budget_guard_threshold_witness :
    ((0:ℚ) < (({} : BudgetGuard)).initialBalance ∧
     (0:ℚ) ≤ (({} : BudgetGuard)).windowSeconds) ∧
    ((recordPnl {} 0 (-1000) 0).triggered = true ↔
      (({} : BudgetGuard)).initialBalance * (({} : BudgetGuard)).maxDrawdownPct / 100 ≤
        |windowTotalPnl (recordPnl {} 0 (-1000) 0)|) :=
  ⟨⟨by with_unfolding_all decide, by with_unfolding_all decide⟩,
   C7_budget_guard_threshold {} 0 (-1000) 0
     (by with_unfolding_all decide) (by with_unfolding_all decide)⟩

/-- C9: in the `try/except Exception` skeleton of `OrderBus.submit`, an
exception raised by validation (step 2), by risk clipping (step 3), or by
any later step up to the audit write (modelled by the abstracted order-id
step) is caught: submit returns a result with `success = false` carrying
the exception message, appends exactly one `order_error` audit event keyed
by the intent id, and — being a total function — never propagates the
exception to the caller. -/
theorem C9_submit_catches_step_exceptions (intentId : String)
    (origIntent o2 : OrderIntent) (v : OrderValidationResult)
    (clipR : Except String OrderIntent) (genIdR : Except String String)
    (log : List AuditEvent) (e : String) :
    (submitSkeleton intentId origIntent (.ok false) (.error e) clipR genIdR log =
      ({ success := false, errorMessage := some e },
       log ++ [{ event := "order_error", intentId := some intentId,
                 errorMessage := some e }])) ∧
    (v.valid = true → v.riskAdjusted = true →
      submitSkeleton intentId origIntent (.ok false) (.ok v) (.error e) genIdR log =
        ({ success := false, errorMessage := some e },
         log ++ [{ event := "order_error", intentId := some intentId,
                   errorMessage := some e }])) ∧
    (v.valid = true →
      submitSkeleton intentId origIntent (.ok false) (.ok v) (.ok o2) (.error e) log =
        ({ success := false, errorMessage := some e },
         log ++ [{ event := "order_error", intentId := some intentId,
                   errorMessage := some e }])) := by
  refine ⟨rfl, ?_, ?_⟩
  · intro hv hra
    simp [submitSkeleton, hv, hra]
  · intro hv
    by_cases hra : v.riskAdjusted <;> simp [submitSkeleton, hv, hra]

/-- C9 witness: a concrete raise in the step after a successful clip is
caught and converted into an `order_error` event and a failed result. -/
theorem C9_submit_catches_step_exceptions_witness :
    ({ valid := true, riskAdjusted := true } : OrderValidationResult).valid = true ∧
    submitSkeleton "w9"
      { symbol := "BTC", side := "BUY", size := 1, otype := "market", intentId := "w9" }
      (.ok false) (.ok { valid := true, riskAdjusted := true })
      (.ok { symbol := "BTC", side := "BUY", size := 1, otype := "market", intentId := "w9" })
      (.error "boom") [] =
      ({ success := false, errorMessage := some "boom" },
       [{ event := "order_error", intentId := some "w9",
          errorMessage := some "boom" }]) :=
  ⟨rfl,
   (C9_submit_catches_step_exceptions "w9"
      { symbol := "BTC", side := "BUY", size := 1, otype := "market", intentId := "w9" }
      { symbol := "BTC", side := "BUY", size := 1, otype := "market", intentId := "w9" }
      { valid := true, riskAdjusted := true }
      (.ok { symbol := "BTC", side := "BUY", size := 1, otype := "market", intentId := "w9" })
      (.error "boom") [] "boom").2.2 rfl⟩

/-- When every attempt reports a Network-classified failure, the retry loop
of `send_order` runs all its remaining iterations and returns the result
of the final attempt, invoking the submission once per iteration. -/
theorem sendOrderGo_all_network (maxRetries : Nat)
    (att : Nat → Except String SendResult) (res : Nat → SendResult)
    (hatt : ∀ n, att n = .ok (res n))
    (hfail : ∀ n, (res n).success = false)
    (hnet : ∀ n, (res n).errorType = some .network) :
    ∀ fuel attempt calls, 1 ≤ fuel → attempt + fuel = maxRetries →
      sendOrderGo maxRetries att fuel attempt calls =
        (res (maxRetries - 1), calls + fuel) := by
  intro fuel
  induction fuel with
  | zero => intro attempt calls h1 _; omega
  | succ f ih =>
    intro attempt calls _ hsum
    unfold sendOrderGo
    rw [hatt attempt]
    dsimp only
    rw [if_neg (by simp [hfail attempt])]
    rw [if_neg (by rw [hnet attempt]; simp)]
    rw [if_neg (by rw [hnet attempt]; simp)]
    by_cases hlt : attempt < maxRetries - 1
    · rw [if_pos hlt]
      have hf1 : 1 ≤ f := by omega
      rw [ih (attempt + 1) (calls + 1) hf1 (by omega)]
      have : calls + 1 + f = calls + (f + 1) := by omega
      rw [this]
    · rw [if_neg hlt]
      have hf0 : f = 0 := by omega
      have ha : attempt = maxRetries - 1 := by omega
      rw [ha, hf0]

/-- C3 (amended): when every underlying attempt yields a Network-classified
failure, `send_order` with `dry_run = false` invokes the submission exactly
`max_retries` times in total (3 with the default `max_retries = 3`, i.e. 2
retries after the first attempt — the loop is
`for attempt in range(self.max_retries)`) and returns the final attempt's
classified failure. -/
theorem C3_amended_max_retries_total_calls (maxRetries : Nat)
    (att : Nat → Except String SendResult) (res : Nat → SendResult)
    (uuid : String) (hmr : 1 ≤ maxRetries)
    (hatt : ∀ n, att n = .ok (res n))
    (hfail : ∀ n, (res n).success = false)
    (hnet : ∀ n, (res n).errorType = some .network) :
    sendOrder maxRetries att false uuid = (res (maxRetries - 1), maxRetries) := by
  unfold sendOrder
  rw [if_neg (by simp)]
  have := sendOrderGo_all_network maxRetries att res hatt hfail hnet
    maxRetries 0 0 hmr (by omega)
  rwa [Nat.zero_add] at this

/-- C3 witness: the amended count applied to a mocked always-Network
client with `max_retries = 4`: exactly 4 invocations and the last failure
returned. -/
theorem C3_amended_max_retries_total_calls_witness :
    1 ≤ 4 ∧
    sendOrder 4 (fun _ => .ok netFailResult) false "u" = (netFailResult, 4) :=
  ⟨by decide,
   C3_amended_max_retries_total_calls 4 (fun _ => .ok netFailResult)
     (fun _ => netFailResult) "u" (by decide) (fun _ => rfl) (fun _ => rfl)
     (fun _ => rfl)⟩

/-- Membership in the purged cache: the entry is present and unexpired. -/
theorem mem_cleanExpired (w now : ℚ) (c : Cache) (e : CacheEntry) :
    e ∈ cleanExpired w now c ↔ e ∈ c ∧ now - e.2 ≤ w := by
  unfold cleanExpired
  rw [List.mem_filter]
  simp [not_lt]

/-- `check_and_store` reports a duplicate exactly when the cache holds an
unexpired entry for the id. -/
theorem checkAndStore_hit_iff (w : ℚ) (m : Nat) (c : Cache) (id : String)
    (now : ℚ) :
    (checkAndStore w m c id now).1 = true ↔
      ∃ e ∈ c, e.1 = id ∧ now - e.2 ≤ w := by
  unfold checkAndStore
  dsimp only
  split_ifs with h hlen
  · simp only [true_iff]
    obtain ⟨e, he, hbeq⟩ := List.any_eq_true.mp h
    obtain ⟨hec, helive⟩ := (mem_cleanExpired w now c e).mp he
    exact ⟨e, hec, by simpa using hbeq, helive⟩
  all_goals
    simp only [false_iff]
    rintro ⟨e, hec, heid, helive⟩
    exact absurd (List.any_eq_true.mpr
      ⟨e, (mem_cleanExpired w now c e).mpr ⟨hec, helive⟩, by simpa using heid⟩) h

/-- A miss stores the fresh `(id, now)` entry (present after the call, even
when the insert evicts the least-recently-used entry). -/
theorem checkAndStore_store_mem (w : ℚ) (m : Nat) (c : Cache) (id : String)
    (now : ℚ) (hm : 1 ≤ m)
    (hmiss : (checkAndStore w m c id now).1 = false) :
    (id, now) ∈ (checkAndStore w m c id now).2 := by
  unfold checkAndStore at hmiss ⊢
  dsimp only at hmiss ⊢
  by_cases h : (cleanExpired w now c).any (fun e => e.1 == id)
  · rw [if_pos h] at hmiss
    exact absurd hmiss (by simp)
  · rw [if_neg h]
    by_cases hlen : (cleanExpired w now c ++ [(id, now)]).length > m
    · rw [if_pos hlen]
      cases hc1 : cleanExpired w now c with
      | nil =>
        rw [hc1] at hlen
        simp only [List.nil_append, List.length_cons, List.length_nil] at hlen
        omega
      | cons a t => simp
    · rw [if_neg hlen]
      simp

/-- An unexpired entry survives a `check_and_store` call for another id, as
long as the purged cache is strictly below `max_size` (so the insert
cannot evict). -/
theorem checkAndStore_preserve (w : ℚ) (m : Nat) (c : Cache) (other : String)
    (now2 : ℚ) (e : CacheEntry) (he : e ∈ c) (hlive : now2 - e.2 ≤ w)
    (hlen : (cleanExpired w now2 c).length < m) :
    e ∈ (checkAndStore w m c other now2).2 := by
  have he1 : e ∈ cleanExpired w now2 c := (mem_cleanExpired w now2 c e).mpr ⟨he, hlive⟩
  unfold checkAndStore
  dsimp only
  split_ifs with h hl
  · unfold moveToEnd
    rcases hbe : (e.1 == other) with _ | _
    · exact List.mem_append_left _ (List.mem_filter.mpr ⟨he1, by simp [hbe]⟩)
    · exact List.mem_append_right _ (List.mem_filter.mpr ⟨he1, hbe⟩)
  · simp at hl
    omega
  · exact List.mem_append_left _ he1

/-- C1 (amended): within one `IdempotencyCache`, (1) a call reports a
duplicate exactly when an unexpired (age ≤ window since insertion) entry
for the id is present — in particular a call after the window has elapsed
reports fresh again; (2) a miss stores the id; (3) an immediately repeated
call within the window reports a duplicate; and (4) the stored entry
survives interleaved calls for other ids while unexpired, provided
size-pressure eviction cannot fire (purged cache strictly below
`max_size`) — the counterexample shows that once more than `max_size`
distinct ids are interleaved, the entry can be evicted and a fresh call
inside the window reports `false` a second time. -/
theorem C1_amended_window_semantics (w : ℚ) (m : Nat) (c : Cache)
    (id other : String) (now now2 : ℚ) (hm : 1 ≤ m) :
    ((checkAndStore w m c id now).1 = true ↔
      ∃ e ∈ c, e.1 = id ∧ now - e.2 ≤ w) ∧
    ((checkAndStore w m c id now).1 = false →
      (id, now) ∈ (checkAndStore w m c id now).2) ∧
    ((checkAndStore w m c id now).1 = false → now2 - now ≤ w →
      (checkAndStore w m (checkAndStore w m c id now).2 id now2).1 = true) ∧
    (∀ e ∈ (checkAndStore w m c id now).2, now2 - e.2 ≤ w →
      (cleanExpired w now2 (checkAndStore w m c id now).2).length < m →
      e ∈ (checkAndStore w m (checkAndStore w m c id now).2 other now2).2) := by
  refine ⟨checkAndStore_hit_iff w m c id now, ?_, ?_, ?_⟩
  · exact checkAndStore_store_mem w m c id now hm
  · intro hmiss hwin
    exact (checkAndStore_hit_iff w m _ id now2).mpr
      ⟨(id, now), checkAndStore_store_mem w m c id now hm hmiss, rfl, hwin⟩
  · intro e he hlive hlen
    exact checkAndStore_preserve w m _ other now2 e he hlive hlen

/-- C1 witness: the amended semantics instantiated at a concrete cache
(`window = 60`, `max_size = 2`, empty start, id `"a"`, second call 30
seconds later). -/
theorem C1_amended_window_semantics_witness :
    1 ≤ 2 ∧
    (((checkAndStore 60 2 [] "a" 0).1 = true ↔
       ∃ e ∈ ([] : Cache), e.1 = "a" ∧ 0 - e.2 ≤ 60) ∧
     ((checkAndStore 60 2 [] "a" 0).1 = false →
       ("a", (0:ℚ)) ∈ (checkAndStore 60 2 [] "a" 0).2) ∧
     ((checkAndStore 60 2 [] "a" 0).1 = false → (30:ℚ) - 0 ≤ 60 →
       (checkAndStore 60 2 (checkAndStore 60 2 [] "a" 0).2 "a" 30).1 = true) ∧
     (∀ e ∈ (checkAndStore 60 2 [] "a" 0).2, (30:ℚ) - e.2 ≤ 60 →
       (cleanExpired 60 30 (checkAndStore 60 2 [] "a" 0).2).length < 2 →
       e ∈ (checkAndStore 60 2 (checkAndStore 60 2 [] "a" 0).2 "b" 30).2)) :=
  ⟨by decide, C1_amended_window_semantics 60 2 [] "a" "b" 0 30 (by decide)⟩

/-- Every reference price in the validator's table is positive. -/
theorem mockPrice_pos (s : String) : 0 < mockPrice s := by
  unfold mockPrice; split_ifs <;> norm_num

/-- C4 (amended): whenever validation produces a clip candidate `c`, the
candidate never exceeds the original size, and it equals the bound of the
LAST violated rule in check order (position over notional over max-size),
because each later violated rule overwrites `clipped_size`; the
counterexample shows the result can exceed the smallest violated bound. -/
theorem C4_amended_last_violated_bound (o : OrderIntent)
    (pos : Option (List (String × ℚ))) (c : ℚ)
    (h : (validateOrderIntent o pos).clippedSize = some c) :
    c ≤ o.size ∧
    c = (match pos with
         | some ps =>
           if ¬ps = [] ∧
              |lookupPos ps o.symbol +
                (if o.side = "BUY" then o.size else -o.size)| > 1000 then
             min o.size (1000 - |lookupPos ps o.symbol|)
           else if o.size * mockPrice o.symbol > 10000 then
             10000 / mockPrice o.symbol
           else (100 : ℚ)
         | none =>
           if o.size * mockPrice o.symbol > 10000 then
             10000 / mockPrice o.symbol
           else (100 : ℚ)) := by
  have hp := mockPrice_pos o.symbol
  unfold validateOrderIntent at h
  dsimp only at h
  match pos with
  | none =>
    dsimp only at h ⊢
    by_cases h1 : o.size * mockPrice o.symbol > 10000
    · rw [if_pos h1] at h
      dsimp only at h
      rw [if_pos h1]
      obtain rfl : (10000 : ℚ) / mockPrice o.symbol = c := by simpa using h
      exact ⟨le_of_lt ((div_lt_iff₀ hp).mpr h1), rfl⟩
    · rw [if_neg h1] at h
      rw [if_neg h1]
      by_cases h2 : o.size > 100
      · rw [if_pos h2] at h
        dsimp only at h
        obtain rfl : (100 : ℚ) = c := by simpa using h
        exact ⟨le_of_lt h2, rfl⟩
      · rw [if_neg h2] at h
        simp at h
  | some ps =>
    dsimp only at h ⊢
    by_cases hps : ps = []
    · rw [if_pos hps] at h
      rw [if_neg (by simp [hps])]
      by_cases h1 : o.size * mockPrice o.symbol > 10000
      · rw [if_pos h1] at h
        dsimp only at h
        rw [if_pos h1]
        obtain rfl : (10000 : ℚ) / mockPrice o.symbol = c := by simpa using h
        exact ⟨le_of_lt ((div_lt_iff₀ hp).mpr h1), rfl⟩
      · rw [if_neg h1] at h
        rw [if_neg h1]
        by_cases h2 : o.size > 100
        · rw [if_pos h2] at h
          dsimp only at h
          obtain rfl : (100 : ℚ) = c := by simpa using h
          exact ⟨le_of_lt h2, rfl⟩
        · rw [if_neg h2] at h
          simp at h
    · rw [if_neg hps] at h
      by_cases hpos : |lookupPos ps o.symbol +
          (if o.side = "BUY" then o.size else -o.size)| > 1000
      · rw [if_pos hpos] at h
        dsimp only at h
        obtain rfl : min o.size (1000 - |lookupPos ps o.symbol|) = c := by
          simpa using h
        refine ⟨min_le_left _ _, ?_⟩
        rw [if_pos ⟨hps, hpos⟩]
      · rw [if_neg hpos] at h
        rw [if_neg (fun hc => hpos hc.2)]
        by_cases h1 : o.size * mockPrice o.symbol > 10000
        · rw [if_pos h1] at h
          dsimp only at h
          rw [if_pos h1]
          obtain rfl : (10000 : ℚ) / mockPrice o.symbol = c := by simpa using h
          exact ⟨le_of_lt ((div_lt_iff₀ hp).mpr h1), rfl⟩
        · rw [if_neg h1] at h
          rw [if_neg h1]
          by_cases h2 : o.size > 100
          · rw [if_pos h2] at h
            dsimp only at h
            obtain rfl : (100 : ℚ) = c := by simpa using h
            exact ⟨le_of_lt h2, rfl⟩
          · rw [if_neg h2] at h
            simp at h

/-- C4 witness: the amended characterization applied to the concrete
clipped intent (BTC BUY 150 against a 950 position): the candidate 50 is
at most the original 150. -/
theorem C4_amended_last_violated_bound_witness :
    (validateOrderIntent
      { symbol := "BTC", side := "BUY", size := 150, otype := "market",
        intentId := "w4" } (some [("BTC", 950)])).clippedSize = some 50 ∧
    (50 : ℚ) ≤ ({ symbol := "BTC", side := "BUY", size := 150,
                  otype := "market", intentId := "w4" } : OrderIntent).size :=
  ⟨by with_unfolding_all rfl,
   (C4_amended_last_violated_bound
     { symbol := "BTC", side := "BUY", size := 150, otype := "market",
       intentId := "w4" } (some [("BTC", 950)]) 50
     (by with_unfolding_all rfl)).1⟩

/-- No decimal digit character is an underscore. -/
theorem digitChar_ne_underscore (d : Nat) : digitChar d ≠ '_' := by
  unfold digitChar; split_ifs <;> decide

/-- The valuation inverts `digitChar` on single digits. -/
theorem charVal_digitChar (d : Nat) (h : d < 10) : charVal (digitChar d) = d := by
  interval_cases d <;> decide

/-- The rendering accumulator is just appended to the canonical digits. -/
theorem natToCharsAux_acc (n : Nat) : ∀ (fuel : Nat) (acc : List Char),
    n < fuel → natToCharsAux fuel n acc = pyDigits n ++ acc := by
  induction n using Nat.strong_induction_on with
  | _ n ih =>
    intro fuel acc hf
    cases fuel with
    | zero => omega
    | succ f =>
      by_cases h10 : n < 10
      · simp [natToCharsAux, pyDigits, h10]
      · have hn0 : 0 < n := by omega
        have hdiv : n / 10 < n := Nat.div_lt_self hn0 (by norm_num)
        have hPD : pyDigits n = pyDigits (n / 10) ++ [digitChar (n % 10)] := by
          unfold pyDigits
          rw [show natToCharsAux (n + 1) n [] =
              natToCharsAux n (n / 10) (digitChar (n % 10) :: []) from by
            simp [natToCharsAux, h10]]
          exact ih (n / 10) hdiv n _ hdiv
        rw [show natToCharsAux (f + 1) n acc =
            natToCharsAux f (n / 10) (digitChar (n % 10) :: acc) from by
          simp [natToCharsAux, h10]]
        rw [ih (n / 10) hdiv f _ (by omega), hPD]
        simp

/-- Decimal valuation round-trip: reading back the rendered digits yields
the original number (hence the rendering is injective). -/
theorem digitsVal_pyDigits (n : Nat) : digitsVal (pyDigits n) = n := by
  induction n using Nat.strong_induction_on with
  | _ n ih =>
    by_cases h10 : n < 10
    · rw [show pyDigits n = [digitChar n] from by simp [pyDigits, natToCharsAux, h10]]
      have := charVal_digitChar n h10
      simp [digitsVal, this]
    · have hn0 : 0 < n := by omega
      have hdiv : n / 10 < n := Nat.div_lt_self hn0 (by norm_num)
      have hPD : pyDigits n = pyDigits (n / 10) ++ [digitChar (n % 10)] := by
        unfold pyDigits
        rw [show natToCharsAux (n + 1) n [] =
            natToCharsAux n (n / 10) (digitChar (n % 10) :: []) from by
          simp [natToCharsAux, h10]]
        exact natToCharsAux_acc (n / 10) n _ hdiv
      rw [hPD]
      unfold digitsVal
      rw [List.foldl_append]
      simp only [List.foldl_cons, List.foldl_nil]
      rw [charVal_digitChar _ (Nat.mod_lt _ (by norm_num))]
      have hv := ih (n / 10) hdiv
      unfold digitsVal at hv
      rw [hv]
      omega

/-- The embedding of `str(int)` is injective on nonnegative integers. -/
theorem pyStrNat_injective : Function.Injective pyStrNat := by
  intro m n h
  have hd : pyDigits m = pyDigits n := congrArg String.data h
  have hvv := congrArg digitsVal hd
  rwa [digitsVal_pyDigits, digitsVal_pyDigits] at hvv

/-- The rendered digits of a number never contain an underscore. -/
theorem underscore_not_mem_pyDigits (n : Nat) : '_' ∉ pyDigits n := by
  induction n using Nat.strong_induction_on with
  | _ n ih =>
    by_cases h10 : n < 10
    · rw [show pyDigits n = [digitChar n] from by simp [pyDigits, natToCharsAux, h10]]
      simp
      exact fun hc => digitChar_ne_underscore n hc.symm
    · have hn0 : 0 < n := by omega
      have hdiv : n / 10 < n := Nat.div_lt_self hn0 (by norm_num)
      have hPD : pyDigits n = pyDigits (n / 10) ++ [digitChar (n % 10)] := by
        unfold pyDigits
        rw [show natToCharsAux (n + 1) n [] =
            natToCharsAux n (n / 10) (digitChar (n % 10) :: []) from by
          simp [natToCharsAux, h10]]
        exact natToCharsAux_acc (n / 10) n _ hdiv
      rw [hPD]
      simp only [List.mem_append, List.mem_singleton]
      rintro (hc | hc)
      · exact ih (n / 10) hdiv hc
      · exact digitChar_ne_underscore _ hc.symm

/-- Two strings with the same character data are equal. -/
theorem string_data_inj {a b : String} (h : a.data = b.data) : a = b := by
  cases a; cases b; exact congrArg String.mk h

/-- Splitting at the last underscore is unambiguous when the suffixes are
underscore-free. -/
theorem append_underscore_inj : ∀ (a b x y : List Char), '_' ∉ x → '_' ∉ y →
    a ++ '_' :: x = b ++ '_' :: y → a = b ∧ x = y := by
  intro a
  induction a with
  | nil =>
    intro b x y hx hy h
    cases b with
    | nil =>
      simp only [List.nil_append, List.cons.injEq] at h
      exact ⟨rfl, h.2⟩
    | cons c bt =>
      simp only [List.nil_append, List.cons_append, List.cons.injEq] at h
      exfalso
      apply hx
      rw [h.2]
      exact List.mem_append_right _ (List.mem_cons_self _ _)
  | cons c at_ ih =>
    intro b x y hx hy h
    cases b with
    | nil =>
      simp only [List.nil_append, List.cons_append, List.cons.injEq] at h
      exfalso
      apply hy
      rw [← h.2]
      exact List.mem_append_right _ (List.mem_cons_self _ _)
    | cons c2 bt =>
      simp only [List.cons_append, List.cons.injEq] at h
      obtain ⟨h1, h2⟩ := ih bt x y hx hy h.2
      exact ⟨by rw [h.1, h1], h2⟩

/-- The character data of a generated order id, split as fixed prefix,
intent id, separator, and decimal timestamp digits. -/
theorem genOrderId_data (id : String) (t : Nat) :
    (genOrderId id t).data =
      ('o' :: 'r' :: 'd' :: '_' :: id.data) ++ '_' :: pyDigits t := by
  have h : (genOrderId id t).data =
      ("ord_".data ++ id.data ++ "_".data) ++ pyDigits t := rfl
  rw [h]
  simp

/-- C8 (amended): order ids generated from distinct (intent id, integer
second) pairs are distinct — the id determines the pair, since the
timestamp digits contain no underscore, so the last underscore splits the
id unambiguously.  The counterexample shows that two `submit` calls with
the same intent id in the same second (reachable once size-pressure
eviction drops the idempotency entry in between) generate the same order
id. -/
theorem C8_amended_order_id_injective (id1 id2 : String) (t1 t2 : Nat)
    (h : ¬(id1 = id2 ∧ t1 = t2)) :
    genOrderId id1 t1 ≠ genOrderId id2 t2 := by
  intro he
  apply h
  have hd := congrArg String.data he
  rw [genOrderId_data, genOrderId_data] at hd
  obtain ⟨h1, h2⟩ := append_underscore_inj _ _ _ _
    (underscore_not_mem_pyDigits t1) (underscore_not_mem_pyDigits t2) hd
  have hid : id1.data = id2.data := by simpa using h1
  exact ⟨string_data_inj hid, pyStrNat_injective (string_data_inj h2)⟩

/-- C8 witness: the amended distinctness applied to a concrete pair of
generations differing only in the second. -/
theorem C8_amended_order_id_injective_witness :
    ¬("a" = "a" ∧ (5 : Nat) = 6) ∧ genOrderId "a" 5 ≠ genOrderId "a" 6 :=
  ⟨by decide, C8_amended_order_id_injective "a" "a" 5 6 (by decide)⟩

/-- In every branch of `submit`, the idempotency cache evolves exactly by
the `check_and_store` call of step 1. -/
theorem busSubmit_cache (st : BusState) (o : OrderIntent)
    (pos : Option (List (String × ℚ))) (now : ℚ) :
    ((busSubmit st o pos now).2).cache =
      (checkAndStore 60 1000 st.cache o.intentId now).2 := by
  unfold busSubmit
  dsimp only
  split
  · rfl
  · split
    · rfl
    · split <;> rfl

/-- The result of `submit` on a fresh (non-duplicate) intent that
validates cleanly without risk adjustment: success with the generated
order id. -/
theorem busSubmit_success_result (st : BusState) (o : OrderIntent)
    (pos : Option (List (String × ℚ))) (now : ℚ)
    (hdup : (checkAndStore 60 1000 st.cache o.intentId now).1 = false)
    (hv : (validateOrderIntent o pos).valid = true)
    (hra : (validateOrderIntent o pos).riskAdjusted = false) :
    (busSubmit st o pos now).1 =
      { success := true,
        orderId := some (genOrderId o.intentId (pyIntNat now)),
        validationResult := some (validateOrderIntent o pos) } := by
  unfold busSubmit
  dsimp only
  rw [hdup, hv, hra]
  simp

/-- Purging is the identity when every entry was inserted at the current
instant (and the window is the default 60 seconds). -/
theorem cleanExpired_same_time (now : ℚ) (c : Cache)
    (hnow : ∀ e ∈ c, e.2 = now) : cleanExpired 60 now c = c := by
  unfold cleanExpired
  apply List.filter_eq_self.mpr
  intro e he
  rw [hnow e he]
  simp

/-- `check_and_store` on a fresh id over a same-instant cache: report new,
append at the most-recently-used end, and evict the front entry exactly
when the map then exceeds `max_size = 1000`. -/
theorem checkAndStore_fresh_snapshot (c : Cache) (i : String) (now : ℚ)
    (hnow : ∀ e ∈ c, e.2 = now)
    (hfree : ∀ e ∈ c, ¬e.1 = i) :
    checkAndStore 60 1000 c i now =
      (false, if c.length + 1 > 1000 then (c ++ [(i, now)]).tail
              else c ++ [(i, now)]) := by
  unfold checkAndStore
  dsimp only
  rw [cleanExpired_same_time now c hnow]
  rw [if_neg (by
    simp only [List.any_eq_true, not_exists, not_and]
    rintro e he hbe
    exact hfree e he (by simpa using hbe))]
  simp only [List.length_append, List.length_cons, List.length_nil]
  split_ifs <;> rfl

/-- Folding `check_and_store` over fresh, pairwise-distinct ids that fit
inside `max_size` appends them all in order, evicting nothing. -/
theorem foldCache_fresh (ids : List String) : ∀ (c : Cache) (now : ℚ),
    (∀ e ∈ c, e.2 = now) → (∀ i ∈ ids, ∀ e ∈ c, ¬e.1 = i) → ids.Nodup →
    c.length + ids.length ≤ 1000 →
    ids.foldl (fun cc i => (checkAndStore 60 1000 cc i now).2) c =
      c ++ ids.map (fun i => (i, now)) := by
  induction ids with
  | nil => intro c now _ _ _ _; simp
  | cons i rest ih =>
    intro c now hnow hfree hnd hlen
    simp only [List.foldl_cons]
    have hstep : (checkAndStore 60 1000 c i now).2 = c ++ [(i, now)] := by
      rw [checkAndStore_fresh_snapshot c i now hnow
        (fun e he => hfree i (List.mem_cons_self i rest) e he)]
      dsimp only
      rw [if_neg (by simp at hlen ⊢; omega)]
    rw [hstep]
    rw [ih (c ++ [(i, now)]) now ?_ ?_ ?_ ?_]
    · simp
    · intro e he
      rcases List.mem_append.mp he with hc | hs
      · exact hnow e hc
      · simp at hs
        rw [hs]
    · intro j hj e he
      rcases List.mem_append.mp he with hc | hs
      · exact hfree j (List.mem_cons_of_mem i hj) e hc
      · simp at hs
        rw [hs]
        dsimp only
        intro hij
        exact (List.nodup_cons.mp hnd).1 (hij ▸ hj)
    · exact (List.nodup_cons.mp hnd).2
    · simp at hlen ⊢
      omega

/-- The 1001st same-instant fresh insert evicts the front
(least-recently-used) entry. -/
theorem checkAndStore_evict_front (c : Cache) (i : String) (now : ℚ)
    (hlen : c.length = 1000)
    (hnow : ∀ e ∈ c, e.2 = now)
    (hfree : ∀ e ∈ c, ¬e.1 = i) :
    (checkAndStore 60 1000 c i now).2 = c.tail ++ [(i, now)] := by
  rw [checkAndStore_fresh_snapshot c i now hnow hfree]
  dsimp only
  rw [if_pos (by omega)]
  cases c with
  | nil => simp at hlen
  | cons a t => simp

/-- A call with an id absent from a same-instant cache reports fresh. -/
theorem checkAndStore_miss_of_fresh (c : Cache) (i : String) (now : ℚ)
    (hnow : ∀ e ∈ c, e.2 = now)
    (hfree : ∀ e ∈ c, ¬e.1 = i) :
    (checkAndStore 60 1000 c i now).1 = false := by
  rw [checkAndStore_fresh_snapshot c i now hnow hfree]

/-- The filler intent ids are pairwise distinct. -/
theorem freshName_injective :
    Function.Injective (fun n : Nat => "f" ++ pyStrNat n) := by
  intro a b h
  have hd : 'f' :: pyDigits a = 'f' :: pyDigits b := congrArg String.data h
  simp only [List.cons.injEq, true_and] at hd
  exact pyStrNat_injective (string_data_inj hd)

/-- No filler intent id equals `"a"`. -/
theorem freshName_ne_a (n : Nat) : ¬("f" ++ pyStrNat n) = "a" := by
  intro h
  have hd : 'f' :: pyDigits n = ['a'] := congrArg String.data h
  simp at hd

/-- The bus fold over filler intents evolves the cache by the pure
`check_and_store` fold over their ids. -/
theorem busFoldCache (l : List Nat) : ∀ st : BusState,
    ((l.foldl (fun s n => (busSubmit s (freshIntent n) none 100).2) st).cache) =
      (l.map (fun n => "f" ++ pyStrNat n)).foldl
        (fun cc i => (checkAndStore 60 1000 cc i 100).2) st.cache := by
  induction l with
  | nil => intro st; rfl
  | cons n rest ih =>
    intro st
    simp only [List.foldl_cons, List.map_cons]
    rw [ih]
    congr 1
    exact busSubmit_cache st (freshIntent n) none 100

/-- After the flood of 1000 distinct filler intents, the cache holds
exactly the 1000 filler entries: the entry for `"a"` has been evicted. -/
theorem busAfterFlood_cache :
    busAfterFlood.cache =
      (List.range 1000).map (fun n => (("f" ++ pyStrNat n), (100 : ℚ))) := by
  have hA : busAfterA.cache = [("a", (100 : ℚ))] := by with_unfolding_all rfl
  have hsplit : List.range 1000 = List.range 999 ++ [999] := by
    simpa using List.range_succ (n := 999)
  unfold busAfterFlood
  rw [busFoldCache, hA, hsplit]
  rw [List.map_append, List.foldl_append]
  have h999 : List.foldl (fun cc i => (checkAndStore 60 1000 cc i 100).2)
      [("a", (100 : ℚ))] ((List.range 999).map (fun n => "f" ++ pyStrNat n)) =
      [("a", (100 : ℚ))] ++
        ((List.range 999).map (fun n => "f" ++ pyStrNat n)).map
          (fun i => (i, (100 : ℚ))) := by
    apply foldCache_fresh
    · intro e he
      simp at he
      rw [he]
    · intro j hj e he
      simp at he
      rw [he]
      simp only [List.mem_map] at hj
      obtain ⟨n, _, hn⟩ := hj
      dsimp only
      intro hc
      exact freshName_ne_a n (by rw [hn, ← hc])
    · exact (List.nodup_range 999).map freshName_injective
    · simp
  rw [h999]
  simp only [List.map_cons, List.map_nil, List.foldl_cons, List.foldl_nil]
  rw [checkAndStore_evict_front]
  · simp [List.map_map, Function.comp]
  · simp
  · intro e he
    rcases List.mem_append.mp he with hc | hs
    · simp at hc
      rw [hc]
    · simp only [List.mem_map] at hs
      obtain ⟨i, _, hi⟩ := hs
      rw [← hi]
  · intro e he
    rcases List.mem_append.mp he with hc | hs
    · simp at hc
      rw [hc]
      exact fun h => freshName_ne_a 999 h.symm
    · simp only [List.map_map, List.mem_map] at hs
      obtain ⟨n, hn, he2⟩ := hs
      rw [← he2]
      dsimp only [Function.comp]
      intro hc
      have : n = 999 := freshName_injective hc
      simp only [List.mem_range] at hn
      omega

/-- C8 counterexample: two `OrderBus.submit` calls carrying the same
intent id `"a"` in the same wall-clock second both reach order-id
generation (the 1000 interleaved distinct intents evicted the idempotency
entry) and generate the SAME order id `"ord_a_100"`. -/
theorem C8_counterexample_same_order_id :
    (busSubmit {} intentA none 100).1.success = true ∧
    (busSubmit busAfterFlood intentA none 100).1.success = true ∧
    (busSubmit {} intentA none 100).1.orderId = some "ord_a_100" ∧
    (busSubmit busAfterFlood intentA none 100).1.orderId = some "ord_a_100" := by
  have hres : (busSubmit busAfterFlood intentA none 100).1 =
      { success := true,
        orderId := some (genOrderId intentA.intentId (pyIntNat 100)),
        validationResult := some (validateOrderIntent intentA none) } := by
    apply busSubmit_success_result
    · rw [busAfterFlood_cache]
      apply checkAndStore_miss_of_fresh
      · intro e he
        simp only [List.mem_map] at he
        obtain ⟨n, _, hn⟩ := he
        rw [← hn]
      · intro e he
        simp only [List.mem_map] at he
        obtain ⟨n, _, hn⟩ := he
        rw [← hn]
        exact freshName_ne_a n
    · with_unfolding_all rfl
    · with_unfolding_all rfl
  have hid : genOrderId intentA.intentId (pyIntNat 100) = "ord_a_100" := by
    with_unfolding_all rfl
  refine ⟨by with_unfolding_all rfl, ?_, by with_unfolding_all rfl, ?_⟩
  · rw [hres]
  · rw [hres, hid]

end DegenBot
